import Mathlib

/-!
Verification of the token-based authentication subsystem of the serverless
webhook server: key derivation, the compact binary token codec
(`makeCompactToken` / `verifyCompactToken`), the minimal HS256 JWT
implementation (`createJwtHs256` / `verifyJwtHs256`), the session gates
(`verifyAccessOrPasswordPage`, `verifyJWTForAPI`), CSRF header validation
(`validateCSRFHeaders`) and the password-exchange branch of the POST handler.

Conventions of the shallow embedding (helperToken/token.mjs and friends):

* JS strings are modelled as `List Char`; byte buffers (`Buffer`) as
  `List Nat`, each entry a byte value `< 256` (enforced by hypotheses where
  an external primitive produces the bytes).
* `crypto.createHmac("sha256", k).update(d).digest()` is modelled as an
  abstract function parameter `hmac : List Nat → List Nat → List Nat`;
  theorems that need them carry the hypotheses that its output has length 32
  and consists of bytes (true of HMAC-SHA256).
* `JSON.stringify` / `JSON.parse ∘ utf8-decode` are modelled as abstract
  parameters `jsonStringify : Json → List Nat` and
  `jsonParse : List Nat → Option Json` (`none` models a parse throw, which
  the source catches and turns into the closed failure `"parse"`).
  Round-trip facts are taken as pointwise hypotheses on exactly the values a
  theorem serialises.
* `randomBytes` nonces and resolved async values (client secret, DynamoDB
  records) are passed in as explicit parameters.
* Unix times and JWT numeric claims are modelled as integers (`Int`); the
  source only ever handles integral seconds in these code paths.
-/

/-- JS string literal helper: a Lean string as a list of characters. -/
def strL (s : String) : List Char := s.data

/-- JSON values as produced by `JSON.parse`. Numbers are modelled as
integers (the token subsystem only produces and compares integral numeric
claims). -/
inductive Json where
  | null : Json
  | bool (b : Bool) : Json
  | num (n : Int) : Json
  | str (s : List Char) : Json
  | arr (xs : List Json) : Json
  | obj (kvs : List (List Char × Json)) : Json

/-- First-match association lookup on the key/value list of a JS object. -/
def lookupKV : List (List Char × Json) → List Char → Option Json
  | [], _ => none
  | (k', v) :: rest, k => if k' = k then some v else lookupKV rest k

/-- Property access `o?.k` / `o.k`: `none` models `undefined` (also for any
non-object receiver, matching JS property lookup on the values that occur
here). -/
def jget : Json → List Char → Option Json
  | Json.obj kvs, k => lookupKV kvs k
  | _, _ => none

/-- JS strict equality `v === s` between an (optional) JSON value and a
string: true exactly when the value is that string. `undefined === s` is
false. -/
def jseqStr : Option Json → List Char → Bool
  | some (Json.str t), s => decide (t = s)
  | _, _ => false

/-- JS falsiness of a JSON value (`undefined` is handled by `Option`
elsewhere; `NaN` cannot arise from the integral model). -/
def jsFalsy : Json → Bool
  | Json.null => true
  | Json.bool b => !b
  | Json.num n => decide (n = 0)
  | Json.str s => decide (s = [])
  | Json.arr _ => false
  | Json.obj _ => false

/-- JS property assignment `{ ...o, k: v }` / `o.k = v`: updates the value
in place when the key exists, else appends the pair. -/
def objset : List (List Char × Json) → List Char → Json → List (List Char × Json)
  | [], k, v => [(k, v)]
  | (k', v') :: rest, k, v =>
      if k' = k then (k, v) :: rest else (k', v') :: objset rest k v

/-- JS `x >>> 0` (ToUint32) applied to an optional JSON value:
`undefined`, `null` and non-numeric values of the shapes that occur here map
to 0; numbers reduce modulo 2^32 (two's complement for negatives). Numeric
strings, which JS would coerce, are not modelled; theorems restrict the
relevant claim to numbers. -/
def jsToUint32 : Option Json → Nat
  | some (Json.num n) => (n % 4294967296).toNat
  | some (Json.bool true) => 1
  | _ => 0

/-- JS `parseInt(String(v))`: `some` for numbers (integral model), `none`
models `NaN` (as for `undefined`, `null`, booleans and non-numeric strings).
Numeric strings are not modelled; theorems restrict the relevant claim to
numbers. -/
def jsParseInt : Option Json → Option Int
  | some (Json.num n) => some n
  | _ => none

-- ── base64url (token.mjs `b64url` / `fromB64url`, over Node's base64 codec)

/-- Base64url alphabet in index order. -/
def b64chars : List Char :=
  strL "ABCDEFGHIJKLMNOPQRSTUVWXYZabcdefghijklmnopqrstuvwxyz0123456789-_"

/-- Character for a sextet. -/
def b64char (n : Nat) : Char := b64chars.getD n 'A'

/-- Sextet for a character. `fromB64url` first rewrites `-`/`_` to `+`/`/`
and then base64-decodes, so the standard characters `+` and `/` are accepted
as aliases; characters outside the alphabet decode to `none` and are ignored
(Node's lenient decoder). -/
def b64val (c : Char) : Option Nat :=
  if c = '+' then some 62
  else if c = '/' then some 63
  else b64chars.findIdx? (fun x => x = c)

/-- Encode bytes as unpadded base64url (token.mjs `b64url`, which strips the
`=` padding). -/
def b64encode : List Nat → List Char
  | [] => []
  | [a] => [b64char (a / 4), b64char (a % 4 * 16)]
  | [a, b] => [b64char (a / 4), b64char (a % 4 * 16 + b / 16), b64char (b % 16 * 4)]
  | a :: b :: c :: rest =>
      b64char (a / 4) :: b64char (a % 4 * 16 + b / 16) ::
      b64char (b % 16 * 4 + c / 64) :: b64char (c % 64) :: b64encode rest

/-- Decode a list of sextets to bytes (groups of four; a trailing group of
two or three yields one or two bytes; a dangling sextet yields nothing). -/
def b64sextets : List Nat → List Nat
  | [] => []
  | [_] => []
  | [a, b] => [a * 4 + b / 16]
  | [a, b, c] => [a * 4 + b / 16, b % 16 * 16 + c / 4]
  | a :: b :: c :: d :: rest =>
      (a * 4 + b / 16) :: (b % 16 * 16 + c / 4) :: (c % 4 * 64 + d) :: b64sextets rest

/-- Decode a base64url string to bytes (token.mjs `fromB64url`): characters
outside the alphabet are ignored, the rest are decoded in groups of four. -/
def b64decode (s : List Char) : List Nat := b64sextets (s.filterMap b64val)

theorem b64val_b64char (n : Nat) (h : n < 64) : b64val (b64char n) = some n := by
  interval_cases n <;> decide

theorem b64char_ne_dot (n : Nat) : b64char n ≠ '.' := by
  by_cases h : n < 64
  · interval_cases n <;> decide
  · have hlen : b64chars.length = 64 := by decide
    unfold b64char
    rw [List.getD_eq_default]
    · decide
    · omega

theorem b64encode_no_dot (bs : List Nat) : '.' ∉ b64encode bs := by
  induction bs using b64encode.induct with
  | case1 => simp [b64encode]
  | case2 a =>
      simp only [b64encode, List.mem_cons, List.not_mem_nil, or_false]
      exact fun h => h.elim (fun h => b64char_ne_dot _ h.symm)
        (fun h => b64char_ne_dot _ h.symm)
  | case3 a b =>
      simp only [b64encode, List.mem_cons, List.not_mem_nil, or_false]
      intro h
      rcases h with h | h | h
      · exact b64char_ne_dot _ h.symm
      · exact b64char_ne_dot _ h.symm
      · exact b64char_ne_dot _ h.symm
  | case4 a b c rest ih =>
      simp only [b64encode, List.mem_cons]
      intro h
      rcases h with h | h | h | h | h
      · exact b64char_ne_dot _ h.symm
      · exact b64char_ne_dot _ h.symm
      · exact b64char_ne_dot _ h.symm
      · exact b64char_ne_dot _ h.symm
      · exact ih h

theorem b64decode_b64encode (bs : List Nat) (h : ∀ x ∈ bs, x < 256) :
    b64decode (b64encode bs) = bs := by
  induction bs using b64encode.induct with
  | case1 => rfl
  | case2 a =>
      have ha : a < 256 := h a (by simp)
      have h1 : a / 4 < 64 := by omega
      have h2 : a % 4 * 16 < 64 := by omega
      simp only [b64encode, b64decode, List.filterMap,
        b64val_b64char _ h1, b64val_b64char _ h2, b64sextets,
        List.cons.injEq, and_true]
      omega
  | case3 a b =>
      have ha : a < 256 := h a (by simp)
      have hb : b < 256 := h b (by simp)
      have h1 : a / 4 < 64 := by omega
      have h2 : a % 4 * 16 + b / 16 < 64 := by omega
      have h3 : b % 16 * 4 < 64 := by omega
      simp only [b64encode, b64decode, List.filterMap,
        b64val_b64char _ h1, b64val_b64char _ h2, b64val_b64char _ h3, b64sextets,
        List.cons.injEq, and_true]
      omega
  | case4 a b c rest ih =>
      have ha : a < 256 := h a (by simp)
      have hb : b < 256 := h b (by simp)
      have hc : c < 256 := h c (by simp)
      have hrest : ∀ x ∈ rest, x < 256 := fun x hx => h x (by simp [hx])
      have h1 : a / 4 < 64 := by omega
      have h2 : a % 4 * 16 + b / 16 < 64 := by omega
      have h3 : b % 16 * 4 + c / 64 < 64 := by omega
      have h4 : c % 64 < 64 := by omega
      have ihr := ih hrest
      simp only [b64encode, b64decode, List.filterMap,
        b64val_b64char _ h1, b64val_b64char _ h2, b64val_b64char _ h3,
        b64val_b64char _ h4] at ihr ⊢
      simp only [b64sextets, ihr, List.cons.injEq, and_true]
      omega

-- ── UTF-8 (`Buffer.from(s, "utf8")`)

/-- UTF-8 encoding of one character (code points, standard bit layout). -/
def utf8Char (c : Char) : List Nat :=
  let n := c.toNat
  if n < 128 then [n]
  else if n < 2048 then [192 + n / 64, 128 + n % 64]
  else if n < 65536 then [224 + n / 4096, 128 + n / 64 % 64, 128 + n % 64]
  else [240 + n / 262144, 128 + n / 4096 % 64, 128 + n / 64 % 64, 128 + n % 64]

/-- UTF-8 encoding of a string (`Buffer.from(s, "utf8")`). -/
def utf8 (s : List Char) : List Nat := s.flatMap utf8Char

theorem char_toNat_lt (c : Char) : c.toNat < 1114112 := by
  have h := c.valid
  show c.val.toNat < 1114112
  rcases h with h | ⟨_, h2⟩
  · have hh : c.val.toNat < 55296 := h
    omega
  · exact h2

theorem utf8Char_lt256 (c : Char) : ∀ b ∈ utf8Char c, b < 256 := by
  have hc := char_toNat_lt c
  unfold utf8Char
  by_cases h1 : c.toNat < 128
  · simp only [h1, if_true]
    intro b hb
    simp only [List.mem_singleton] at hb
    omega
  · simp only [h1, if_false]
    by_cases h2 : c.toNat < 2048
    · simp only [h2, if_true]
      intro b hb
      simp only [List.mem_cons, List.not_mem_nil, or_false] at hb
      rcases hb with hb | hb <;> omega
    · simp only [h2, if_false]
      by_cases h3 : c.toNat < 65536
      · simp only [h3, if_true]
        intro b hb
        simp only [List.mem_cons, List.not_mem_nil, or_false] at hb
        rcases hb with hb | hb | hb <;> omega
      · simp only [h3, if_false]
        intro b hb
        simp only [List.mem_cons, List.not_mem_nil, or_false] at hb
        rcases hb with hb | hb | hb | hb <;> omega

theorem utf8_lt256 (s : List Char) : ∀ b ∈ utf8 s, b < 256 := by
  intro b hb
  simp only [utf8, List.mem_flatMap] at hb
  obtain ⟨c, _, hbc⟩ := hb
  exact utf8Char_lt256 c b hbc

-- ── `String.prototype.split(".")`

/-- Model of JS `token.split(".")` on the character list. -/
def splitOnDot : List Char → List (List Char)
  | [] => [[]]
  | c :: rest =>
      if c = '.' then [] :: splitOnDot rest
      else
        match splitOnDot rest with
        | h :: t => (c :: h) :: t
        | [] => [[c]]

theorem splitOnDot_ne_nil (s : List Char) : splitOnDot s ≠ [] := by
  induction s with
  | nil => simp [splitOnDot]
  | cons c rest ih =>
      unfold splitOnDot
      by_cases h : c = '.'
      · simp [h]
      · simp only [h, if_false]
        cases hs : splitOnDot rest with
        | nil => simp
        | cons a t => simp

theorem splitOnDot_no_dot (s : List Char) (h : '.' ∉ s) : splitOnDot s = [s] := by
  induction s with
  | nil => rfl
  | cons c rest ih =>
      have hc : c ≠ '.' := fun hh => h (by simp [hh])
      have hr : '.' ∉ rest := fun hh => h (by simp [hh])
      unfold splitOnDot
      simp only [hc, if_false, ih hr]

theorem splitOnDot_append_dot (a r : List Char) (h : '.' ∉ a) :
    splitOnDot (a ++ '.' :: r) = a :: splitOnDot r := by
  induction a with
  | nil => simp [splitOnDot]
  | cons c rest ih =>
      have hc : c ≠ '.' := fun hh => h (by simp [hh])
      have hr : '.' ∉ rest := fun hh => h (by simp [hh])
      simp only [List.cons_append, splitOnDot]
      rw [if_neg hc, show rest.append ('.' :: r) = rest ++ '.' :: r from rfl, ih hr]

-- ── 32-bit big-endian words (token.mjs `u32`, `Buffer.readUInt32BE`)

/-- token.mjs `u32`: 4-byte big-endian encoding of `n >>> 0`. -/
def u32 (n : Nat) : List Nat :=
  [n % 4294967296 / 16777216, n % 16777216 / 65536, n % 65536 / 256, n % 256]

/-- Buffer.readUInt32BE: big-endian 32-bit read of the first four bytes. -/
def readU32 (l : List Nat) : Nat :=
  match l with
  | b0 :: b1 :: b2 :: b3 :: _ => ((b0 * 256 + b1) * 256 + b2) * 256 + b3
  | _ => 0

theorem readU32_u32 (n : Nat) : readU32 (u32 n) = n % 4294967296 := by
  simp only [u32, readU32]
  omega

theorem u32_length (n : Nat) : (u32 n).length = 4 := rfl

theorem u32_lt256 (n : Nat) : ∀ b ∈ u32 n, b < 256 := by
  intro b hb
  simp only [u32, List.mem_cons, List.not_mem_nil, or_false] at hb
  rcases hb with hb | hb | hb | hb <;> omega

-- ── list slicing helpers (Buffer.subarray)

theorem take_append_len {α : Type} (a b : List α) (n : Nat) (h : a.length = n) :
    (a ++ b).take n = a := by
  subst h
  simp [List.take_left]

theorem drop_append_len {α : Type} (a b : List α) (n : Nat) (h : a.length = n) :
    (a ++ b).drop n = b := by
  subst h
  simp [List.drop_left]

-- ── key derivation (token.mjs)

/-- token.mjs `deriveSigningKey`: HMAC of the per-instance `authKey` under
the long-term `clientSecret` (legacy compact tokens). The empty-input
`TypeError` throws are modelled at the call sites (the callers catch them). -/
def deriveSigningKey (hmac : List Nat → List Nat → List Nat)
    (clientSecret instanceAuthKey : List Char) : List Nat :=
  hmac (utf8 clientSecret) (utf8 instanceAuthKey)

/-- token.mjs `deriveCookieSigningKey`: domain-separated HMAC of
`"JWT_COOKIE|" + instanceId` under `clientSecret` (two `update` calls
concatenate). -/
def deriveCookieSigningKey (hmac : List Nat → List Nat → List Nat)
    (clientSecret instanceId : List Char) : List Nat :=
  hmac (utf8 clientSecret) (utf8 (strL "JWT_COOKIE|") ++ utf8 instanceId)

-- ── compact token (token.mjs `makeCompactToken` / `verifyCompactToken`)

/-- Result value of `verifyCompactToken`: `ok` carries the `iat` and `exp`
fields actually present on the returned JS object, `fail` the `reason`. -/
inductive CompactResult where
  | ok (iat : Option Nat) (exp : Option Nat) : CompactResult
  | fail (reason : List Char) : CompactResult
deriving DecidableEq

/-- token.mjs `makeCompactToken`: wire layout
`ver(1) | flags(1) | iat(4) | expDelta(4) | nonce(8) | tag(16)`, base64url
encoded; the tag is HMAC over
`ver|flags|iat|expDelta|nonce|instanceId|tokenVersion` truncated to 16
bytes. The `randomBytes(8)` nonce is an explicit parameter. -/
def makeCompactToken (hmac : List Nat → List Nat → List Nat)
    (signingKey : List Nat) (instanceId : List Char) (tokenVersion : Nat)
    (iat : Nat) (ttlSeconds : Nat) (nonce : List Nat) : List Char :=
  let flags := if 0 < ttlSeconds then 1 else 0
  let expDelta := if 0 < ttlSeconds then ttlSeconds else 0
  let macInput :=
    [1, flags] ++ u32 iat ++ u32 expDelta ++ nonce ++ utf8 instanceId ++
      u32 (tokenVersion % 4294967296)
  let sig := (hmac signingKey macInput).take 16
  let wire := [1, flags] ++ u32 iat ++ u32 expDelta ++ nonce ++ sig
  b64encode wire

/-- token.mjs `verifyCompactToken`. In the embedding nothing can throw, so
the `catch`-produced `"parse"` reason is unreachable; all other branches are
modelled exactly, including the `expDelta == 3600` bypass. -/
def verifyCompactToken (hmac : List Nat → List Nat → List Nat)
    (token : List Char) (signingKey : List Nat) (instanceId : List Char)
    (tokenVersion : Nat) (nowSec : Int) : CompactResult :=
  let wire := b64decode token
  if wire.length ≠ 34 then .fail (strL "len")
  else
    let ver := wire.getD 0 0
    let flags := wire.getD 1 0
    let iat := readU32 (wire.drop 2)
    let expDelta := readU32 (wire.drop 6)
    let nonce := (wire.drop 10).take 8
    let sig := (wire.drop 18).take 16
    if ver ≠ 1 then .fail (strL "ver")
    else
      let macInput :=
        [ver, flags] ++ (wire.drop 2).take 8 ++ nonce ++ utf8 instanceId ++
          u32 (tokenVersion % 4294967296)
      let expected := (hmac signingKey macInput).take 16
      if expected ≠ sig then .fail (strL "mac")
      else if flags % 2 = 1 then
        let exp := iat + expDelta
        if expDelta = 3600 then .ok none (some exp)
        else if nowSec > (exp : Int) then .fail (strL "exp")
        else .ok (some iat) (some exp)
      else .ok (some iat) none

theorem readU32_u32_append (n : Nat) (l : List Nat) :
    readU32 (u32 n ++ l) = n % 4294967296 := by
  simp only [u32, List.cons_append, List.nil_append, readU32]
  omega

theorem verify_make_compact (hmac : List Nat → List Nat → List Nat)
    (key : List Nat) (iid : List Char) (tv : Nat) (iat ttl : Nat)
    (nonce : List Nat) (now : Int)
    (h32 : ∀ k d, (hmac k d).length = 32)
    (hby : ∀ k d, ∀ b ∈ hmac k d, b < 256)
    (hn8 : nonce.length = 8) (hnb : ∀ b ∈ nonce, b < 256)
    (hiat : iat < 4294967296) (httl : 0 < ttl) (httl2 : ttl < 4294967296) :
    verifyCompactToken hmac (makeCompactToken hmac key iid tv iat ttl nonce)
        key iid tv now =
      (if ttl = 3600 then CompactResult.ok none (some (iat + ttl))
       else if now > ((iat + ttl : Nat) : Int) then CompactResult.fail (strL "exp")
       else CompactResult.ok (some iat) (some (iat + ttl))) := by
  have hif1 : (if 0 < ttl then 1 else 0) = 1 := if_pos httl
  have hif2 : (if 0 < ttl then ttl else 0) = ttl := if_pos httl
  unfold makeCompactToken
  rw [hif1, hif2]
  set macInput :=
    [1, 1] ++ u32 iat ++ u32 ttl ++ nonce ++ utf8 iid ++ u32 (tv % 4294967296)
    with hmac_input
  set sig := (hmac key macInput).take 16 with hsig
  have hsl : sig.length = 16 := by
    rw [hsig, List.length_take, h32]
    omega
  have hsb : ∀ b ∈ sig, b < 256 := by
    intro b hb
    rw [hsig] at hb
    exact hby key macInput b (List.take_subset 16 _ hb)
  set wire := [1, 1] ++ u32 iat ++ u32 ttl ++ nonce ++ sig with hwire
  have hwb : ∀ b ∈ wire, b < 256 := by
    intro b hb
    rw [hwire] at hb
    rcases List.mem_append.mp hb with hb1 | hbs
    · rcases List.mem_append.mp hb1 with hb2 | hbn
      · rcases List.mem_append.mp hb2 with hb3 | hbt
        · rcases List.mem_append.mp hb3 with hb4 | hbi
          · simp only [List.mem_cons, List.not_mem_nil, or_false] at hb4
            rcases hb4 with h | h <;> omega
          · exact u32_lt256 iat b hbi
        · exact u32_lt256 ttl b hbt
      · exact hnb b hbn
    · exact hsb b hbs
  have hdec : b64decode (b64encode wire) = wire := b64decode_b64encode wire hwb
  have hwlen : wire.length = 34 := by
    rw [hwire]
    simp only [List.length_append, List.length_cons, List.length_nil,
      u32_length, hn8, hsl]
  -- slice the wire back apart (Buffer.subarray / readUInt32BE offsets)
  have hw2 : wire.drop 2 = u32 iat ++ (u32 ttl ++ (nonce ++ sig)) := by
    rw [hwire]
    simp [List.append_assoc]
  have hw6 : wire.drop 6 = u32 ttl ++ (nonce ++ sig) := by
    have : wire.drop 6 = (wire.drop 2).drop 4 := by
      rw [List.drop_drop]
    rw [this, hw2, drop_append_len _ _ 4 (u32_length iat)]
  have hw10 : wire.drop 10 = nonce ++ sig := by
    have : wire.drop 10 = (wire.drop 6).drop 4 := by
      rw [List.drop_drop]
    rw [this, hw6, drop_append_len _ _ 4 (u32_length ttl)]
  have hw18 : wire.drop 18 = sig := by
    have : wire.drop 18 = (wire.drop 10).drop 8 := by
      rw [List.drop_drop]
    rw [this, hw10, drop_append_len _ _ 8 hn8]
  have hnonce : (wire.drop 10).take 8 = nonce := by
    rw [hw10, take_append_len _ _ 8 hn8]
  have hsig16 : (wire.drop 18).take 16 = sig := by
    rw [hw18, ← hsl, List.take_length]
  have htake8 : (wire.drop 2).take 8 = u32 iat ++ u32 ttl := by
    rw [hw2, ← List.append_assoc]
    refine take_append_len _ _ 8 ?_
    simp [u32_length]
  have hiatr : readU32 (wire.drop 2) = iat := by
    rw [hw2, readU32_u32_append, Nat.mod_eq_of_lt hiat]
  have httlr : readU32 (wire.drop 6) = ttl := by
    rw [hw6, readU32_u32_append, Nat.mod_eq_of_lt httl2]
  have hget0 : wire.getD 0 0 = 1 := by rw [hwire]; rfl
  have hget1 : wire.getD 1 0 = 1 := by rw [hwire]; rfl
  have hmacArg :
      (1 : Nat) :: 1 :: (u32 iat ++ (u32 ttl ++ (nonce ++ (utf8 iid ++
          u32 (tv % 4294967296))))) = macInput := by
    rw [hmac_input]
    simp [List.append_assoc]
  simp only [verifyCompactToken]
  rw [hdec]
  simp only [hwlen, hget0, hget1, hiatr, httlr, hnonce, hsig16, htake8]
  rw [if_neg (by omega : ¬ (34 : Nat) ≠ 34)]
  rw [if_neg (by omega : ¬ (1 : Nat) ≠ 1)]
  simp only [List.append_assoc, List.cons_append, List.nil_append]
  rw [hmacArg, ← hsig]
  rw [if_neg (fun h => h rfl : ¬ sig ≠ sig)]
  rw [if_pos trivial]

-- ── minimal HS256 JWT (token.mjs `createJwtHs256` / `verifyJwtHs256`)

/-- Result value of `verifyJwtHs256`: `ok` carries the decoded payload,
`fail` the `reason`. -/
inductive JwtResult where
  | ok (payload : Json) : JwtResult
  | fail (reason : List Char) : JwtResult

/-- The fixed JWT header object `{ alg: "HS256", typ: "JWT" }`. -/
def jwtHeader : Json :=
  Json.obj [(strL "alg", Json.str (strL "HS256")), (strL "typ", Json.str (strL "JWT"))]

/-- Body object built by `createJwtHs256`:
`{ ...payload, iat, iss }` plus `aud` when given and `exp` when `ttlSec > 0`
(`aud` is an `Option`, `none` standing for an absent/falsy argument). -/
def jwtBody (payload : List (List Char × Json)) (ttlSec : Int) (iss : List Char)
    (aud : Option (List Char)) (iat : Int) : List (List Char × Json) :=
  let b := objset (objset payload (strL "iat") (Json.num iat)) (strL "iss") (Json.str iss)
  let b := match aud with
    | some a => objset b (strL "aud") (Json.str a)
    | none => b
  if 0 < ttlSec then objset b (strL "exp") (Json.num (iat + ttlSec)) else b

/-- token.mjs `createJwtHs256`: base64url(header).base64url(body) signed
with HMAC over the UTF-8 bytes of the first two segments. -/
def createJwtHs256 (hmac : List Nat → List Nat → List Nat)
    (jsonStringify : Json → List Nat) (key : List Nat)
    (payload : List (List Char × Json)) (ttlSec : Int) (iss : List Char)
    (aud : Option (List Char)) (iat : Int) : List Char :=
  let encodedHeader := b64encode (jsonStringify jwtHeader)
  let encodedPayload := b64encode (jsonStringify (Json.obj (jwtBody payload ttlSec iss aud iat)))
  let data := encodedHeader ++ '.' :: encodedPayload
  let sig := hmac key (utf8 data)
  data ++ '.' :: b64encode sig

/-- JS `audOk` from `verifyJwtHs256`: `payload.aud` equals the expected
audience string, or is an array containing it. -/
def audOk : Option Json → List Char → Bool
  | some (Json.str s), a => decide (s = a)
  | some (Json.arr xs), a =>
      xs.any (fun x => match x with | Json.str s => decide (s = a) | _ => false)
  | _, _ => false

/-- Claim checks of `verifyJwtHs256` after the signature is verified and the
payload decoded: `iss`, `aud`, `nbf`, `exp` in source order. The `iss` and
`aud` arguments use `[]` resp. `none` for a falsy (skipped) expectation. -/
def jwtClaimChecks (payload : Json) (iss : List Char) (aud : Option (List Char))
    (now clockSkewSec : Int) : JwtResult :=
  if iss ≠ [] ∧ jseqStr (jget payload (strL "iss")) iss = false then
    JwtResult.fail (strL "iss")
  else
    let audFail : Bool := match aud with
      | some a => !(audOk (jget payload (strL "aud")) a)
      | none => false
    if audFail then JwtResult.fail (strL "aud")
    else
      let nbfFail : Bool := match jget payload (strL "nbf") with
        | some (Json.num n) => decide (now + clockSkewSec < n)
        | _ => false
      if nbfFail then JwtResult.fail (strL "nbf")
      else
        let expFail : Bool := match jget payload (strL "exp") with
          | some (Json.num e) => decide (now - clockSkewSec ≥ e)
          | _ => false
        if expFail then JwtResult.fail (strL "exp")
        else JwtResult.ok payload

/-- token.mjs `verifyJwtHs256`. `jsonParse` models
`JSON.parse(fromB64url(s).toString("utf8"))`, `none` standing for a throw,
which the surrounding `try` turns into reason `"parse"`. The
`timingSafeEqual` with its length guard is byte-list equality. -/
def verifyJwtHs256 (hmac : List Nat → List Nat → List Nat)
    (jsonParse : List Nat → Option Json) (token : List Char) (key : List Nat)
    (iss : List Char) (aud : Option (List Char)) (now clockSkewSec : Int) : JwtResult :=
  match splitOnDot token with
  | [h, p, s] =>
    match jsonParse (b64decode h) with
    | none => JwtResult.fail (strL "parse")
    | some header =>
      if (jseqStr (jget header (strL "alg")) (strL "HS256") &&
          jseqStr (jget header (strL "typ")) (strL "JWT")) = false then
        JwtResult.fail (strL "header")
      else
        let data := h ++ '.' :: p
        let expectedSig := hmac key (utf8 data)
        let gotSig := b64decode s
        if expectedSig ≠ gotSig then JwtResult.fail (strL "sig")
        else
          match jsonParse (b64decode p) with
          | none => JwtResult.fail (strL "parse")
          | some payload => jwtClaimChecks payload iss aud now clockSkewSec
  | _ => JwtResult.fail (strL "format")

theorem lookupKV_objset_same (l : List (List Char × Json)) (k : List Char) (v : Json) :
    lookupKV (objset l k v) k = some v := by
  induction l with
  | nil => simp [objset, lookupKV]
  | cons kv rest ih =>
      obtain ⟨k', v'⟩ := kv
      by_cases h : k' = k
      · simp [objset, h, lookupKV]
      · simp [objset, h, lookupKV, ih]

theorem lookupKV_objset_other (l : List (List Char × Json)) (k k' : List Char)
    (v : Json) (h : k' ≠ k) :
    lookupKV (objset l k v) k' = lookupKV l k' := by
  induction l with
  | nil =>
      simp only [objset, lookupKV]
      rw [if_neg (fun hh : k = k' => h hh.symm)]
  | cons kv rest ih =>
      obtain ⟨k0, v0⟩ := kv
      by_cases h0 : k0 = k
      · subst h0
        simp only [objset, if_pos rfl, lookupKV]
        rw [if_neg (fun hh : k0 = k' => h hh.symm),
          if_neg (fun hh : k0 = k' => h hh.symm)]
      · simp only [objset, if_neg h0, lookupKV]
        by_cases h1 : k0 = k'
        · rw [if_pos h1, if_pos h1]
        · rw [if_neg h1, if_neg h1, ih]

theorem lookupKV_fresh (l : List (List Char × Json)) (k : List Char)
    (h : k ∉ l.map Prod.fst) : lookupKV l k = none := by
  induction l with
  | nil => rfl
  | cons kv rest ih =>
      obtain ⟨k0, v0⟩ := kv
      simp only [List.map_cons, List.mem_cons] at h
      push_neg at h
      simp only [lookupKV]
      rw [if_neg (fun hh : k0 = k => h.1 hh.symm)]
      exact ih h.2

theorem objset_fresh (l : List (List Char × Json)) (k : List Char) (v : Json)
    (h : k ∉ l.map Prod.fst) : objset l k v = l ++ [(k, v)] := by
  induction l with
  | nil => rfl
  | cons kv rest ih =>
      obtain ⟨k0, v0⟩ := kv
      simp only [List.map_cons, List.mem_cons] at h
      push_neg at h
      simp only [objset, List.cons_append]
      rw [if_neg (fun hh : k0 = k => h.1 hh.symm), ih h.2]

theorem verify_create (hmac : List Nat → List Nat → List Nat)
    (jsonParse : List Nat → Option Json) (jsonStringify : Json → List Nat)
    (key : List Nat) (payload : List (List Char × Json)) (ttl : Int)
    (iss : List Char) (aud : Option (List Char)) (iat now skew : Int)
    (hby : ∀ k d, ∀ b ∈ hmac k d, b < 256)
    (hsh : ∀ b ∈ jsonStringify jwtHeader, b < 256)
    (hsb : ∀ b ∈ jsonStringify (Json.obj (jwtBody payload ttl iss aud iat)), b < 256)
    (hph : jsonParse (jsonStringify jwtHeader) = some jwtHeader)
    (hpb : jsonParse (jsonStringify (Json.obj (jwtBody payload ttl iss aud iat))) =
      some (Json.obj (jwtBody payload ttl iss aud iat))) :
    verifyJwtHs256 hmac jsonParse
        (createJwtHs256 hmac jsonStringify key payload ttl iss aud iat)
        key iss aud now skew =
      jwtClaimChecks (Json.obj (jwtBody payload ttl iss aud iat)) iss aud now skew := by
  set body := Json.obj (jwtBody payload ttl iss aud iat) with hbody
  set eh := b64encode (jsonStringify jwtHeader) with heh
  set ep := b64encode (jsonStringify body) with hep
  set sig := hmac key (utf8 (eh ++ '.' :: ep)) with hsg
  set es := b64encode sig with hes
  have hehd : '.' ∉ eh := by rw [heh]; exact b64encode_no_dot _
  have hepd : '.' ∉ ep := by rw [hep]; exact b64encode_no_dot _
  have hesd : '.' ∉ es := by rw [hes]; exact b64encode_no_dot _
  have htok : createJwtHs256 hmac jsonStringify key payload ttl iss aud iat =
      eh ++ '.' :: (ep ++ '.' :: es) := by
    simp only [createJwtHs256, ← hbody, ← heh, ← hep, ← hsg, ← hes,
      List.append_assoc, List.cons_append]
  have hsplit : splitOnDot (eh ++ '.' :: (ep ++ '.' :: es)) = [eh, ep, es] := by
    rw [splitOnDot_append_dot _ _ hehd, splitOnDot_append_dot _ _ hepd,
      splitOnDot_no_dot _ hesd]
  have hdh : b64decode eh = jsonStringify jwtHeader := by
    rw [heh]
    exact b64decode_b64encode _ hsh
  have hdp : b64decode ep = jsonStringify body := by
    rw [hep, hbody]
    exact b64decode_b64encode _ hsb
  have hds : b64decode es = sig := by
    rw [hes, hsg]
    exact b64decode_b64encode _ (hby key _)
  rw [htok]
  simp only [verifyJwtHs256, hsplit, hdh, hph, hdp, hds]
  rw [hbody, hpb, ← hbody]
  have halg : (jseqStr (jget jwtHeader (strL "alg")) (strL "HS256") &&
      jseqStr (jget jwtHeader (strL "typ")) (strL "JWT")) = true := by decide
  rw [halg]
  simp only [Bool.true_eq_false, if_false, ← hsg]
  rw [if_neg (fun h => h rfl : ¬ sig ≠ sig)]

-- ── concrete instantiations used by witnesses

/-- Concrete stand-in for HMAC-SHA256 used by witnesses: a fixed 32-byte
digest. -/
def hmacW : List Nat → List Nat → List Nat := fun _ _ => List.range 32

theorem hmacW_len : ∀ k d, (hmacW k d).length = 32 := fun _ _ => List.length_range 32

theorem hmacW_lt256 : ∀ k d, ∀ b ∈ hmacW k d, b < 256 := by
  intro k d b hb
  have := List.mem_range.mp hb
  omega

/-- Concrete 8-byte nonce used by witnesses. -/
def nonceW : List Nat := List.replicate 8 0

theorem nonceW_len : nonceW.length = 8 := List.length_replicate 8 0

theorem nonceW_lt256 : ∀ b ∈ nonceW, b < 256 := by
  intro b hb
  have := List.eq_of_mem_replicate hb
  omega

/-- C2: a compact token minted with `ttlSeconds = 3600` (expiry flag set,
`expDelta = 3600`) and verified with the matching key, instanceId and
tokenVersion verifies ok for every `now`; for every other positive
`ttlSeconds` (below 2^32, as the wire u32 requires) verification fails with
reason `exp` exactly when `now > issuedAt + ttlSeconds`. -/
theorem compact_ttl3600_bypass (hmac : List Nat → List Nat → List Nat)
    (key : List Nat) (iid : List Char) (tv : Nat) (iat ttl : Nat)
    (nonce : List Nat) (now : Int)
    (h32 : ∀ k d, (hmac k d).length = 32)
    (hby : ∀ k d, ∀ b ∈ hmac k d, b < 256)
    (hn8 : nonce.length = 8) (hnb : ∀ b ∈ nonce, b < 256)
    (hiat : iat < 4294967296) (httl : 0 < ttl) (httl2 : ttl < 4294967296) :
    (ttl = 3600 →
      verifyCompactToken hmac (makeCompactToken hmac key iid tv iat ttl nonce)
          key iid tv now = CompactResult.ok none (some (iat + ttl)))
    ∧ (ttl ≠ 3600 →
      (verifyCompactToken hmac (makeCompactToken hmac key iid tv iat ttl nonce)
          key iid tv now = CompactResult.fail (strL "exp") ↔
        now > ((iat + ttl : Nat) : Int)))
    ∧ (ttl ≠ 3600 → ¬ now > ((iat + ttl : Nat) : Int) →
      verifyCompactToken hmac (makeCompactToken hmac key iid tv iat ttl nonce)
          key iid tv now = CompactResult.ok (some iat) (some (iat + ttl))) := by
  have hv := verify_make_compact hmac key iid tv iat ttl nonce now h32 hby hn8 hnb
    hiat httl httl2
  refine ⟨fun h3600 => ?_, fun hne => ?_, fun hne hnow => ?_⟩
  · rw [hv, if_pos h3600]
  · rw [hv, if_neg hne]
    by_cases hnow : now > ((iat + ttl : Nat) : Int)
    · rw [if_pos hnow]
      exact iff_of_true rfl hnow
    · rw [if_neg hnow]
      exact iff_of_false (fun h => CompactResult.noConfusion h) hnow
  · rw [hv, if_neg hne, if_neg hnow]

/-- Witness for C2 at concrete inputs: `ttl = 3600` verifies ok even with
`now` far past expiry, and `ttl = 60` fails with `exp` there. -/
theorem compact_ttl3600_bypass_witness :
    verifyCompactToken hmacW
        (makeCompactToken hmacW [] (strL "i1") 1 1000 3600 nonceW)
        [] (strL "i1") 1 1000000 = CompactResult.ok none (some (1000 + 3600))
    ∧ verifyCompactToken hmacW
        (makeCompactToken hmacW [] (strL "i1") 1 1000 60 nonceW)
        [] (strL "i1") 1 1000000 = CompactResult.fail (strL "exp") := by
  constructor
  · exact (compact_ttl3600_bypass hmacW [] (strL "i1") 1 1000 3600 nonceW 1000000
      hmacW_len hmacW_lt256 nonceW_len nonceW_lt256 (by norm_num) (by norm_num)
      (by norm_num)).1 rfl
  · exact ((compact_ttl3600_bypass hmacW [] (strL "i1") 1 1000 60 nonceW 1000000
      hmacW_len hmacW_lt256 nonceW_len nonceW_lt256 (by norm_num) (by norm_num)
      (by norm_num)).2.1 (by norm_num)).mpr (by norm_num)

-- ── lookups on the body built by createJwtHs256

theorem jwtBody_iss (payload : List (List Char × Json)) (ttl : Int)
    (iss : List Char) (aud : Option (List Char)) (iat : Int) :
    lookupKV (jwtBody payload ttl iss aud iat) (strL "iss") = some (Json.str iss) := by
  unfold jwtBody
  by_cases hket : 0 < ttl
  · rw [if_pos hket,
      lookupKV_objset_other _ _ _ _ (by decide : strL "iss" ≠ strL "exp")]
    cases aud with
    | some a =>
        rw [lookupKV_objset_other _ _ _ _ (by decide : strL "iss" ≠ strL "aud")]
        exact lookupKV_objset_same _ _ _
    | none => exact lookupKV_objset_same _ _ _
  · rw [if_neg hket]
    cases aud with
    | some a =>
        rw [lookupKV_objset_other _ _ _ _ (by decide : strL "iss" ≠ strL "aud")]
        exact lookupKV_objset_same _ _ _
    | none => exact lookupKV_objset_same _ _ _

theorem jwtBody_aud (payload : List (List Char × Json)) (ttl : Int)
    (iss : List Char) (a : List Char) (iat : Int) :
    lookupKV (jwtBody payload ttl iss (some a) iat) (strL "aud") = some (Json.str a) := by
  unfold jwtBody
  by_cases hket : 0 < ttl
  · rw [if_pos hket,
      lookupKV_objset_other _ _ _ _ (by decide : strL "aud" ≠ strL "exp")]
    exact lookupKV_objset_same _ _ _
  · rw [if_neg hket]
    exact lookupKV_objset_same _ _ _

theorem jwtBody_other (payload : List (List Char × Json)) (ttl : Int)
    (iss : List Char) (aud : Option (List Char)) (iat : Int) (k : List Char)
    (h1 : k ≠ strL "iat") (h2 : k ≠ strL "iss") (h3 : k ≠ strL "aud")
    (h4 : k ≠ strL "exp") :
    lookupKV (jwtBody payload ttl iss aud iat) k = lookupKV payload k := by
  unfold jwtBody
  by_cases hket : 0 < ttl
  · rw [if_pos hket, lookupKV_objset_other _ _ _ _ h4]
    cases aud with
    | some a =>
        rw [lookupKV_objset_other _ _ _ _ h3, lookupKV_objset_other _ _ _ _ h2,
          lookupKV_objset_other _ _ _ _ h1]
    | none =>
        rw [lookupKV_objset_other _ _ _ _ h2, lookupKV_objset_other _ _ _ _ h1]
  · rw [if_neg hket]
    cases aud with
    | some a =>
        rw [lookupKV_objset_other _ _ _ _ h3, lookupKV_objset_other _ _ _ _ h2,
          lookupKV_objset_other _ _ _ _ h1]
    | none =>
        rw [lookupKV_objset_other _ _ _ _ h2, lookupKV_objset_other _ _ _ _ h1]

theorem jwtBody_exp_pos (payload : List (List Char × Json)) (ttl : Int)
    (iss : List Char) (aud : Option (List Char)) (iat : Int) (h : 0 < ttl) :
    lookupKV (jwtBody payload ttl iss aud iat) (strL "exp") =
      some (Json.num (iat + ttl)) := by
  unfold jwtBody
  rw [if_pos h]
  exact lookupKV_objset_same _ _ _

theorem jwtBody_exp_nonpos (payload : List (List Char × Json)) (ttl : Int)
    (iss : List Char) (aud : Option (List Char)) (iat : Int) (h : ¬ 0 < ttl)
    (hfresh : strL "exp" ∉ payload.map Prod.fst) :
    lookupKV (jwtBody payload ttl iss aud iat) (strL "exp") = none := by
  unfold jwtBody
  rw [if_neg h]
  cases aud with
  | some a =>
      rw [lookupKV_objset_other _ _ _ _ (by decide : strL "exp" ≠ strL "aud"),
        lookupKV_objset_other _ _ _ _ (by decide : strL "exp" ≠ strL "iss"),
        lookupKV_objset_other _ _ _ _ (by decide : strL "exp" ≠ strL "iat")]
      exact lookupKV_fresh _ _ hfresh
  | none =>
      rw [lookupKV_objset_other _ _ _ _ (by decide : strL "exp" ≠ strL "iss"),
        lookupKV_objset_other _ _ _ _ (by decide : strL "exp" ≠ strL "iat")]
      exact lookupKV_fresh _ _ hfresh

theorem claimChecks_pass (body : List (List Char × Json)) (iss a : List Char)
    (now skew : Int)
    (hiss : lookupKV body (strL "iss") = some (Json.str iss))
    (haud : lookupKV body (strL "aud") = some (Json.str a))
    (hnbf : lookupKV body (strL "nbf") = none)
    (hexp : lookupKV body (strL "exp") = none ∨
      ∃ e : Int, lookupKV body (strL "exp") = some (Json.num e) ∧ now - skew < e) :
    jwtClaimChecks (Json.obj body) iss (some a) now skew =
      JwtResult.ok (Json.obj body) := by
  unfold jwtClaimChecks
  rw [show jget (Json.obj body) (strL "iss") = lookupKV body (strL "iss") from rfl,
    show jget (Json.obj body) (strL "aud") = lookupKV body (strL "aud") from rfl,
    show jget (Json.obj body) (strL "nbf") = lookupKV body (strL "nbf") from rfl,
    show jget (Json.obj body) (strL "exp") = lookupKV body (strL "exp") from rfl,
    hiss, haud, hnbf]
  rw [if_neg (by simp [jseqStr] : ¬(iss ≠ [] ∧ jseqStr (some (Json.str iss)) iss = false))]
  rw [if_neg (by simp [audOk] : ¬((!audOk (some (Json.str a)) a) = true))]
  rw [if_neg (by simp : ¬(false = true))]
  rcases hexp with hexp | ⟨e, hexp, he⟩
  · rw [hexp]
    rw [if_neg (by simp : ¬(false = true))]
  · rw [hexp]
    rw [if_neg (by simp; omega : ¬(decide (now - skew ≥ e) = true))]

theorem fresh_snoc (l : List (List Char × Json)) (k k0 : List Char) (v0 : Json)
    (h1 : k ∉ l.map Prod.fst) (h2 : k ≠ k0) :
    k ∉ (l ++ [(k0, v0)]).map Prod.fst := by
  simp only [List.map_append, List.mem_append, List.map_cons, List.map_nil,
    List.mem_cons, List.not_mem_nil, or_false]
  rintro (h | h)
  · exact h1 h
  · exact h2 h

-- ── C3: JWT mint/verify round trip

/-- Concrete stand-in for `JSON.stringify` used by witnesses: the two
objects a single mint serialises (header vs body) are distinguished by
their first key. -/
def stringifyW : Json → List Nat := fun j =>
  match j with
  | Json.obj ((k, _) :: _) => if k = strL "alg" then [0] else [1]
  | _ => [2]

/-- C3 (amended): for every key, claims object not using the reserved keys
`iat`/`iss`/`aud`/`exp`/`nbf`, positive ttl, issuer, audience and issuedAt,
verifying the minted JWT with the same key, expected issuer and audience,
zero clock skew and any `issuedAt ≤ now < issuedAt + ttl` returns ok with
the input claims unchanged plus the `iat`, `iss`, `aud` and `exp` added at
signing. -/
theorem jwt_roundtrip (hmac : List Nat → List Nat → List Nat)
    (jsonParse : List Nat → Option Json) (jsonStringify : Json → List Nat)
    (key : List Nat) (payload : List (List Char × Json)) (ttl : Int)
    (iss : List Char) (a : List Char) (iat now : Int)
    (hby : ∀ k d, ∀ b ∈ hmac k d, b < 256)
    (hsh : ∀ b ∈ jsonStringify jwtHeader, b < 256)
    (hsb : ∀ b ∈ jsonStringify (Json.obj (jwtBody payload ttl iss (some a) iat)), b < 256)
    (hph : jsonParse (jsonStringify jwtHeader) = some jwtHeader)
    (hpb : jsonParse (jsonStringify (Json.obj (jwtBody payload ttl iss (some a) iat))) =
      some (Json.obj (jwtBody payload ttl iss (some a) iat)))
    (hkey : key ≠ [])
    (hfIat : strL "iat" ∉ payload.map Prod.fst)
    (hfIss : strL "iss" ∉ payload.map Prod.fst)
    (hfAud : strL "aud" ∉ payload.map Prod.fst)
    (hfExp : strL "exp" ∉ payload.map Prod.fst)
    (hfNbf : strL "nbf" ∉ payload.map Prod.fst)
    (httl : 0 < ttl) (hn1 : iat ≤ now) (hn2 : now < iat + ttl) :
    verifyJwtHs256 hmac jsonParse
        (createJwtHs256 hmac jsonStringify key payload ttl iss (some a) iat)
        key iss (some a) now 0 =
      JwtResult.ok (Json.obj (payload ++
        [(strL "iat", Json.num iat), (strL "iss", Json.str iss),
         (strL "aud", Json.str a), (strL "exp", Json.num (iat + ttl))])) := by
  have hbodyEq : jwtBody payload ttl iss (some a) iat = payload ++
      [(strL "iat", Json.num iat), (strL "iss", Json.str iss),
       (strL "aud", Json.str a), (strL "exp", Json.num (iat + ttl))] := by
    have f2 : strL "iss" ∉ (payload ++ [(strL "iat", Json.num iat)]).map Prod.fst :=
      fresh_snoc _ _ _ _ hfIss (by decide)
    have f3 : strL "aud" ∉ ((payload ++ [(strL "iat", Json.num iat)]) ++
        [(strL "iss", Json.str iss)]).map Prod.fst :=
      fresh_snoc _ _ _ _ (fresh_snoc _ _ _ _ hfAud (by decide)) (by decide)
    have f4 : strL "exp" ∉ (((payload ++ [(strL "iat", Json.num iat)]) ++
        [(strL "iss", Json.str iss)]) ++ [(strL "aud", Json.str a)]).map Prod.fst :=
      fresh_snoc _ _ _ _ (fresh_snoc _ _ _ _
        (fresh_snoc _ _ _ _ hfExp (by decide)) (by decide)) (by decide)
    unfold jwtBody
    rw [if_pos httl]
    dsimp only
    rw [objset_fresh _ _ _ hfIat, objset_fresh _ _ _ f2,
      objset_fresh _ _ _ f3, objset_fresh _ _ _ f4]
    simp [List.append_assoc]
  rw [verify_create hmac jsonParse jsonStringify key payload ttl iss (some a) iat
    now 0 hby hsh hsb hph hpb]
  rw [claimChecks_pass _ _ _ _ _ (jwtBody_iss _ _ _ _ _) (jwtBody_aud _ _ _ _ _)
    (by
      rw [jwtBody_other _ _ _ _ _ _ (by decide) (by decide) (by decide) (by decide)]
      exact lookupKV_fresh _ _ hfNbf)
    (Or.inr ⟨iat + ttl, jwtBody_exp_pos _ _ _ _ _ httl, by omega⟩)]
  rw [hbodyEq]

/-- Concrete audience used by witnesses. -/
def audW : List Char := strL "wi:i1"

/-- Claims object that itself carries an `nbf` claim (allowed JSON, but a
reserved JWT key). -/
def claimsNbf : List (List Char × Json) := [(strL "nbf", Json.num 2000000000)]

/-- Parse stand-in for the nbf counterexample mint. -/
def parseNbf : List Nat → Option Json := fun bs =>
  if bs = [0] then some jwtHeader
  else if bs = [1] then some (Json.obj (jwtBody claimsNbf 50 (strL "tgl") (some audW) 100))
  else none

/-- Counterexample to C3 as stated: the claims object `{nbf: 2000000000}`
with ttl 50, minted at iat 100 and verified at now 120 (inside the validity
window, same key/issuer/audience, zero skew) yields `fail "nbf"`, not ok. -/
theorem jwt_roundtrip_counterexample :
    verifyJwtHs256 hmacW parseNbf
        (createJwtHs256 hmacW stringifyW [7] claimsNbf 50 (strL "tgl") (some audW) 100)
        [7] (strL "tgl") (some audW) 120 0 = JwtResult.fail (strL "nbf") := by
  rw [verify_create hmacW parseNbf stringifyW [7] claimsNbf 50 (strL "tgl")
    (some audW) 100 120 0 hmacW_lt256 (by decide) (by decide) (by rfl) (by rfl)]
  rfl

/-- Claims object for the round-trip witness (the shape the handler mints). -/
def claimsW : List (List Char × Json) :=
  [(strL "iid", Json.str (strL "i1")), (strL "tv", Json.num 7)]

/-- Parse stand-in for the round-trip witness mint. -/
def parseW : List Nat → Option Json := fun bs =>
  if bs = [0] then some jwtHeader
  else if bs = [1] then some (Json.obj (jwtBody claimsW 50 (strL "tgl") (some audW) 100))
  else none

/-- Witness for the amended C3 at concrete inputs. -/
theorem jwt_roundtrip_witness :
    verifyJwtHs256 hmacW parseW
        (createJwtHs256 hmacW stringifyW [7] claimsW 50 (strL "tgl") (some audW) 100)
        [7] (strL "tgl") (some audW) 120 0 =
      JwtResult.ok (Json.obj (claimsW ++
        [(strL "iat", Json.num 100), (strL "iss", Json.str (strL "tgl")),
         (strL "aud", Json.str audW), (strL "exp", Json.num (100 + 50))])) :=
  jwt_roundtrip hmacW parseW stringifyW [7] claimsW 50 (strL "tgl") audW 100 120
    hmacW_lt256 (by decide) (by decide) (by rfl) (by rfl) (by decide)
    (by decide) (by decide) (by decide) (by decide) (by decide)
    (by norm_num) (by norm_num) (by norm_num)

/-- C10: a JWT created with `ttlSec ≤ 0` carries no `exp` claim (when the
claims object does not supply one itself), and since `verifyJwtHs256` only
applies the expiry check when the payload's `exp` is a number, the token
verifies ok at every `now` (and every skew); it never fails with reason
`exp`. -/
theorem jwt_no_ttl_never_expires (hmac : List Nat → List Nat → List Nat)
    (jsonParse : List Nat → Option Json) (jsonStringify : Json → List Nat)
    (key : List Nat) (payload : List (List Char × Json)) (ttl : Int)
    (iss : List Char) (a : List Char) (iat : Int)
    (hby : ∀ k d, ∀ b ∈ hmac k d, b < 256)
    (hsh : ∀ b ∈ jsonStringify jwtHeader, b < 256)
    (hsb : ∀ b ∈ jsonStringify (Json.obj (jwtBody payload ttl iss (some a) iat)), b < 256)
    (hph : jsonParse (jsonStringify jwtHeader) = some jwtHeader)
    (hpb : jsonParse (jsonStringify (Json.obj (jwtBody payload ttl iss (some a) iat))) =
      some (Json.obj (jwtBody payload ttl iss (some a) iat)))
    (hfExp : strL "exp" ∉ payload.map Prod.fst)
    (hfNbf : strL "nbf" ∉ payload.map Prod.fst)
    (httl : ttl ≤ 0) :
    lookupKV (jwtBody payload ttl iss (some a) iat) (strL "exp") = none
    ∧ ∀ now skew : Int,
      verifyJwtHs256 hmac jsonParse
          (createJwtHs256 hmac jsonStringify key payload ttl iss (some a) iat)
          key iss (some a) now skew =
        JwtResult.ok (Json.obj (jwtBody payload ttl iss (some a) iat)) := by
  have hexp : lookupKV (jwtBody payload ttl iss (some a) iat) (strL "exp") = none :=
    jwtBody_exp_nonpos _ _ _ _ _ (by omega) hfExp
  refine ⟨hexp, fun now skew => ?_⟩
  rw [verify_create hmac jsonParse jsonStringify key payload ttl iss (some a) iat
    now skew hby hsh hsb hph hpb]
  exact claimChecks_pass _ _ _ _ _ (jwtBody_iss _ _ _ _ _) (jwtBody_aud _ _ _ _ _)
    (by
      rw [jwtBody_other _ _ _ _ _ _ (by decide) (by decide) (by decide) (by decide)]
      exact lookupKV_fresh _ _ hfNbf)
    (Or.inl hexp)

/-- Parse stand-in for the no-ttl witness mint. -/
def parseW0 : List Nat → Option Json := fun bs =>
  if bs = [0] then some jwtHeader
  else if bs = [1] then some (Json.obj (jwtBody claimsW 0 (strL "tgl") (some audW) 100))
  else none

/-- Witness for C10 at concrete inputs: `now` far in the future still ok. -/
theorem jwt_no_ttl_never_expires_witness :
    lookupKV (jwtBody claimsW 0 (strL "tgl") (some audW) 100) (strL "exp") = none
    ∧ verifyJwtHs256 hmacW parseW0
        (createJwtHs256 hmacW stringifyW [7] claimsW 0 (strL "tgl") (some audW) 100)
        [7] (strL "tgl") (some audW) 99999999 60 =
      JwtResult.ok (Json.obj (jwtBody claimsW 0 (strL "tgl") (some audW) 100)) := by
  have h := jwt_no_ttl_never_expires hmacW parseW0 stringifyW [7] claimsW 0
    (strL "tgl") audW 100 hmacW_lt256 (by decide) (by decide) (by rfl) (by rfl)
    (by decide) (by decide) (by norm_num)
  exact ⟨h.1, h.2 99999999 60⟩

-- ── C6: only HS256/JWT headers are accepted

/-- C6: for every token whose three dot-separated segments are `h`, `p`,
`s` and whose first segment decodes to a JSON header in which `alg` is not
exactly the string "HS256" or `typ` is not exactly "JWT" (including
non-object headers), `verifyJwtHs256` fails with reason `header`,
regardless of the key, payload or signature. -/
theorem jwt_header_only_hs256 (hmac : List Nat → List Nat → List Nat)
    (jsonParse : List Nat → Option Json) (token h p s : List Char)
    (key : List Nat) (iss : List Char) (aud : Option (List Char)) (now skew : Int)
    (hdr : Json)
    (hsplit : splitOnDot token = [h, p, s])
    (hparse : jsonParse (b64decode h) = some hdr)
    (hbad : ¬ (jseqStr (jget hdr (strL "alg")) (strL "HS256") = true ∧
        jseqStr (jget hdr (strL "typ")) (strL "JWT") = true)) :
    verifyJwtHs256 hmac jsonParse token key iss aud now skew =
      JwtResult.fail (strL "header") := by
  have hb : (jseqStr (jget hdr (strL "alg")) (strL "HS256") &&
      jseqStr (jget hdr (strL "typ")) (strL "JWT")) = false := by
    cases h1 : jseqStr (jget hdr (strL "alg")) (strL "HS256") <;>
      cases h2 : jseqStr (jget hdr (strL "typ")) (strL "JWT") <;>
      simp_all
  unfold verifyJwtHs256
  rw [hsplit]
  dsimp only
  rw [hparse]
  dsimp only
  rw [hb]
  rfl

/-- Witness for C6: a three-segment token whose header decodes to the JSON
number 5 (so `alg` is undefined) is rejected with reason `header`. -/
theorem jwt_header_only_hs256_witness :
    verifyJwtHs256 hmacW (fun bs => if bs = [0] then some (Json.num 5) else none)
        (strL "AA.BB.CC") [] (strL "tgl") none 0 0 =
      JwtResult.fail (strL "header") :=
  jwt_header_only_hs256 hmacW _ (strL "AA.BB.CC") (strL "AA") (strL "BB")
    (strL "CC") [] (strL "tgl") none 0 0 (Json.num 5) (by decide) (by rfl)
    (by decide)

-- ── C7: verification returns closed failure values

/-- C7: both verifiers are total functions into a closed result type: every
outcome is an `ok` or a `fail` with one of the fixed reason strings (the
source's `try`/`catch` additionally maps any throw to `"parse"`, which in
this embedding only arises from the JSON-parse step of the JWT verifier);
and a compact token whose base64url decoding is shorter than 34 bytes
always yields reason `len`. -/
theorem verify_closed_failures :
    (∀ (hmac : List Nat → List Nat → List Nat) (token : List Char)
        (key : List Nat) (iid : List Char) (tv : Nat) (now : Int),
      (∃ i e, verifyCompactToken hmac token key iid tv now = CompactResult.ok i e)
      ∨ (∃ r, verifyCompactToken hmac token key iid tv now = CompactResult.fail r
          ∧ (r = strL "len" ∨ r = strL "ver" ∨ r = strL "mac" ∨ r = strL "exp")))
    ∧ (∀ (hmac : List Nat → List Nat → List Nat)
        (jsonParse : List Nat → Option Json) (token : List Char)
        (key : List Nat) (iss : List Char) (aud : Option (List Char))
        (now skew : Int),
      (∃ q, verifyJwtHs256 hmac jsonParse token key iss aud now skew = JwtResult.ok q)
      ∨ (∃ r, verifyJwtHs256 hmac jsonParse token key iss aud now skew = JwtResult.fail r
          ∧ (r = strL "format" ∨ r = strL "parse" ∨ r = strL "header"
            ∨ r = strL "sig" ∨ r = strL "iss" ∨ r = strL "aud"
            ∨ r = strL "nbf" ∨ r = strL "exp")))
    ∧ (∀ (hmac : List Nat → List Nat → List Nat) (token : List Char)
        (key : List Nat) (iid : List Char) (tv : Nat) (now : Int),
      (b64decode token).length < 34 →
        verifyCompactToken hmac token key iid tv now = CompactResult.fail (strL "len")) := by
  refine ⟨fun hmac token key iid tv now => ?_,
    fun hmac jsonParse token key iss aud now skew => ?_,
    fun hmac token key iid tv now hlen => ?_⟩
  · simp only [verifyCompactToken]
    repeat' split
    all_goals first
      | exact Or.inl ⟨_, _, rfl⟩
      | exact Or.inr ⟨_, rfl, by decide⟩
  · simp only [verifyJwtHs256, jwtClaimChecks]
    repeat' split
    all_goals first
      | exact Or.inl ⟨_, rfl⟩
      | exact Or.inr ⟨_, rfl, by decide⟩
  · unfold verifyCompactToken
    rw [if_pos (by omega : ¬ (b64decode token).length = 34)]

/-- Witness for C7's conditional part: the one-character token `"A"`
decodes to zero bytes and is rejected with reason `len`. -/
theorem verify_closed_failures_witness :
    verifyCompactToken hmacW (strL "A") [] (strL "i1") 0 0 =
      CompactResult.fail (strL "len") :=
  verify_closed_failures.2.2 hmacW (strL "A") [] (strL "i1") 0 0 (by decide)

-- ── session gates (auth/password.mjs, auth/jwt.mjs)

/-- Fields of the DynamoDB instance record used by the gates. `none` on an
optional field models an absent or empty (falsy) value. -/
structure InstanceRec where
  id : List Char
  authKey : Option (List Char)
  tokenVersion : Nat
  password : Option (List Char)

/-- Fields of the webhook record used by the gates. -/
structure WebhookRec where
  passwordProtected : Bool

/-- Outcome of `verifyAccessOrPasswordPage`: `{ok:true}` or
`{ok:false, html: PASSWORD_PAGE_HTML}`. -/
inductive GateResult where
  | allow : GateResult
  | passwordPage : GateResult
deriving DecidableEq

/-- JS string truthiness on an optional string: an absent or empty string is
falsy. -/
def truthyStr : Option (List Char) → Option (List Char)
  | some s => if s = [] then none else some s
  | none => none

/-- auth/password.mjs `verifyAccessOrPasswordPage` (identical legacy flow in
handlers' copies). The event plumbing is abstracted: `qsToken` is
`event.queryStringParameters?.token`, `cookieToken` the cookie-map entry for
`cookieNameFor(instance.id)`, and `clientSecret` the resolved
`getClientSecret(webhook.ClientID)`. The `TypeError` throws of the key
derivations on empty inputs are modelled by the emptiness guards (the
surrounding `try`/`catch` turns them into the password-page denial). -/
def verifyAccessOrPasswordPage (hmac : List Nat → List Nat → List Nat)
    (jsonParse : List Nat → Option Json) (inst : InstanceRec)
    (webhook : WebhookRec) (clientSecret : List Char)
    (qsToken cookieToken : Option (List Char)) (now : Int) : GateResult :=
  if webhook.passwordProtected = false then .allow
  else
    match truthyStr qsToken, truthyStr inst.authKey with
    | some qt, some ak =>
        if clientSecret = [] then .passwordPage
        else
          match verifyCompactToken hmac qt (deriveSigningKey hmac clientSecret ak)
              inst.id (inst.tokenVersion % 4294967296) now with
          | CompactResult.ok _ _ => .allow
          | CompactResult.fail _ => .passwordPage
    | _, _ =>
      match truthyStr cookieToken with
      | some ct =>
          if clientSecret = [] ∨ inst.id = [] then .passwordPage
          else
            match verifyJwtHs256 hmac jsonParse ct
                (deriveCookieSigningKey hmac clientSecret inst.id)
                (strL "tgl") (some (strL "wi:" ++ inst.id)) now 60 with
            | JwtResult.fail _ => .passwordPage
            | JwtResult.ok payload =>
                let p := if jsFalsy payload then Json.obj [] else payload
                if jseqStr (jget p (strL "iid")) inst.id = false then .passwordPage
                else if jsToUint32 (jget p (strL "tv")) ≠
                    inst.tokenVersion % 4294967296 then .passwordPage
                else .allow
      | none => .passwordPage

/-- Outcome of `verifyJWTForAPI`: `ok` keeps the JWT payload (the instance
and webhook records it also returns are the inputs), `err` the error
string. -/
inductive ApiResult where
  | ok (payload : Json) : ApiResult
  | err (msg : List Char) : ApiResult

/-- auth/jwt.mjs `verifyJWTForAPI`. `inst`/`webhook`/`clientSecret` are the
resolved DynamoDB/secret lookups (`none` models a missing record or falsy
secret), `cookieToken` the cookie-map entry. `parseInt(payload.tv)` is
`jsParseInt`; `parseInt(instance.tokenVersion || 0)` on the numeric field is
the number itself. The explicit expiry re-check `payload.exp && payload.exp
< nowSec()` is modelled for numeric `exp` (its implicit JS coercion on
non-numeric values is outside the model). A throw inside the `try` (the
cookie-key derivation on an empty instance id) yields "Internal error". -/
def verifyJWTForAPI (hmac : List Nat → List Nat → List Nat)
    (jsonParse : List Nat → Option Json) (instanceId : List Char)
    (inst : Option InstanceRec) (webhook : Option WebhookRec)
    (clientSecret : Option (List Char)) (cookieToken : Option (List Char))
    (now : Int) : ApiResult :=
  match inst with
  | none => .err (strL "Instance not found")
  | some inst =>
    match webhook with
    | none => .err (strL "Webhook not found")
    | some _ =>
      match truthyStr clientSecret with
      | none => .err (strL "Client configuration error")
      | some cs =>
        if instanceId = [] then .err (strL "Internal error")
        else
          match truthyStr cookieToken with
          | none => .err (strL "Authentication required")
          | some token =>
            match verifyJwtHs256 hmac jsonParse token
                (deriveCookieSigningKey hmac cs instanceId)
                (strL "tgl") (some (strL "wi:" ++ instanceId)) now 60 with
            | JwtResult.fail _ => .err (strL "Invalid authentication token")
            | JwtResult.ok payload =>
              let p := if jsFalsy payload then Json.obj [] else payload
              if jseqStr (jget p (strL "iid")) instanceId = false then
                .err (strL "Instance ID mismatch")
              else if jsParseInt (jget p (strL "tv")) ≠
                  some (inst.tokenVersion : Int) then
                .err (strL "Token has been revoked")
              else
                match jget p (strL "exp") with
                | some (Json.num e) =>
                    if e ≠ 0 ∧ e < now then .err (strL "Token expired") else .ok p
                | _ => .ok p

theorem jget_some_not_falsy (p : Json) (k : List Char) (v : Json)
    (h : jget p k = some v) : (if jsFalsy p then Json.obj [] else p) = p := by
  cases p <;> simp only [jget] at h <;> try exact absurd h (by simp)
  simp [jsFalsy]

theorem append_cons_ne_nil {α : Type} (a : List α) (c : α) (b : List α) :
    a ++ c :: b ≠ [] := by
  cases a <;> simp

theorem createJwtHs256_ne_nil (hmac : List Nat → List Nat → List Nat)
    (jsonStringify : Json → List Nat) (key : List Nat)
    (payload : List (List Char × Json)) (ttlSec : Int) (iss : List Char)
    (aud : Option (List Char)) (iat : Int) :
    createJwtHs256 hmac jsonStringify key payload ttlSec iss aud iat ≠ [] := by
  unfold createJwtHs256
  exact append_cons_ne_nil _ _ _

theorem gate_cookie_allow_only_if (hmac : List Nat → List Nat → List Nat)
    (jsonParse : List Nat → Option Json) (inst : InstanceRec)
    (webhook : WebhookRec) (cs : List Char) (ct : List Char) (now : Int)
    (p : Json) (t : Int)
    (hprot : webhook.passwordProtected = true)
    (hver : verifyJwtHs256 hmac jsonParse ct
        (deriveCookieSigningKey hmac cs inst.id) (strL "tgl")
        (some (strL "wi:" ++ inst.id)) now 60 = JwtResult.ok p)
    (htv : jget p (strL "tv") = some (Json.num t))
    (hallow : verifyAccessOrPasswordPage hmac jsonParse inst webhook cs
        none (some ct) now = GateResult.allow) :
    jseqStr (jget p (strL "iid")) inst.id = true ∧
      (t % 4294967296).toNat = inst.tokenVersion % 4294967296 := by
  have hobj : (if jsFalsy p then Json.obj [] else p) = p :=
    jget_some_not_falsy _ _ _ htv
  simp only [verifyAccessOrPasswordPage] at hallow
  rw [hprot] at hallow
  rw [if_neg (by decide : ¬ true = false)] at hallow
  dsimp only [truthyStr] at hallow
  by_cases hct : ct = []
  · rw [if_pos hct] at hallow
    dsimp only at hallow
    exact GateResult.noConfusion hallow
  · rw [if_neg hct] at hallow
    dsimp only at hallow
    by_cases hcsid : cs = [] ∨ inst.id = []
    · rw [if_pos hcsid] at hallow
      exact GateResult.noConfusion hallow
    · rw [if_neg hcsid, hver] at hallow
      dsimp only at hallow
      rw [hobj] at hallow
      cases hiid : jseqStr (jget p (strL "iid")) inst.id with
      | false =>
          rw [hiid] at hallow
          rw [if_pos rfl] at hallow
          exact GateResult.noConfusion hallow
      | true =>
          rw [hiid] at hallow
          rw [if_neg (by decide : ¬ true = false)] at hallow
          by_cases htveq : jsToUint32 (jget p (strL "tv")) ≠
              inst.tokenVersion % 4294967296
          · rw [if_pos htveq] at hallow
            exact GateResult.noConfusion hallow
          · push_neg at htveq
            refine ⟨rfl, ?_⟩
            rw [htv] at htveq
            simpa [jsToUint32] using htveq

theorem api_ok_only_if (hmac : List Nat → List Nat → List Nat)
    (jsonParse : List Nat → Option Json) (instanceId : List Char)
    (inst : InstanceRec) (wh : WebhookRec) (cs : List Char) (ct : List Char)
    (now : Int) (p q : Json) (t : Int)
    (hver : verifyJwtHs256 hmac jsonParse ct
        (deriveCookieSigningKey hmac cs instanceId) (strL "tgl")
        (some (strL "wi:" ++ instanceId)) now 60 = JwtResult.ok p)
    (htv : jget p (strL "tv") = some (Json.num t))
    (hok : verifyJWTForAPI hmac jsonParse instanceId (some inst) (some wh)
        (some cs) (some ct) now = ApiResult.ok q) :
    jseqStr (jget p (strL "iid")) instanceId = true ∧
      (t % 4294967296).toNat = inst.tokenVersion % 4294967296 := by
  have hobj : (if jsFalsy p then Json.obj [] else p) = p :=
    jget_some_not_falsy _ _ _ htv
  simp only [verifyJWTForAPI, truthyStr] at hok
  by_cases hcs : cs = []
  · rw [if_pos hcs] at hok
    dsimp only at hok
    exact ApiResult.noConfusion hok
  · rw [if_neg hcs] at hok
    dsimp only at hok
    by_cases hid : instanceId = []
    · rw [if_pos hid] at hok
      exact ApiResult.noConfusion hok
    · rw [if_neg hid] at hok
      by_cases hct : ct = []
      · rw [if_pos hct] at hok
        dsimp only at hok
        exact ApiResult.noConfusion hok
      · rw [if_neg hct] at hok
        dsimp only at hok
        rw [hver] at hok
        dsimp only at hok
        rw [hobj] at hok
        cases hiid : jseqStr (jget p (strL "iid")) instanceId with
        | false =>
            rw [hiid] at hok
            rw [if_pos rfl] at hok
            exact ApiResult.noConfusion hok
        | true =>
            rw [hiid] at hok
            rw [if_neg (by decide : ¬ true = false)] at hok
            by_cases htveq : jsParseInt (jget p (strL "tv")) ≠
                some (inst.tokenVersion : Int)
            · rw [if_pos htveq] at hok
              exact ApiResult.noConfusion hok
            · push_neg at htveq
              refine ⟨rfl, ?_⟩
              rw [htv] at htveq
              simp only [jsParseInt, Option.some.injEq] at htveq
              subst htveq
              omega

/-- Session claims the password-exchange handler mints into the cookie JWT:
`{ iid: instance.id, tv: instance.tokenVersion >>> 0 }` with the revocation
counter at mint time. -/
def sessionClaims (iid : List Char) (n : Nat) : List (List Char × Json) :=
  [(strL "iid", Json.str iid), (strL "tv", Json.num (n : Int))]

/-- Cookie JWT as minted by handlers/post.mjs for instance `iid` with
revocation counter `n`. -/
def mintedSessionToken (hmac : List Nat → List Nat → List Nat)
    (jsonStringify : Json → List Nat) (cs iid : List Char) (n : Nat)
    (ttl iat : Int) : List Char :=
  createJwtHs256 hmac jsonStringify (deriveCookieSigningKey hmac cs iid)
    (sessionClaims iid n) ttl (strL "tgl") (some (strL "wi:" ++ iid)) iat

theorem minted_jwt_denied_after_revocation (hmac : List Nat → List Nat → List Nat)
    (jsonParse : List Nat → Option Json) (jsonStringify : Json → List Nat)
    (inst : InstanceRec) (wh : WebhookRec) (cs : List Char) (n : Nat)
    (ttl iat now : Int)
    (hprot : wh.passwordProtected = true)
    (hcs : cs ≠ []) (hid : inst.id ≠ [])
    (htv1 : inst.tokenVersion = n + 1)
    (hby : ∀ k d, ∀ b ∈ hmac k d, b < 256)
    (hsh : ∀ b ∈ jsonStringify jwtHeader, b < 256)
    (hsb : ∀ b ∈ jsonStringify (Json.obj (jwtBody (sessionClaims inst.id n) ttl
        (strL "tgl") (some (strL "wi:" ++ inst.id)) iat)), b < 256)
    (hph : jsonParse (jsonStringify jwtHeader) = some jwtHeader)
    (hpb : jsonParse (jsonStringify (Json.obj (jwtBody (sessionClaims inst.id n)
        ttl (strL "tgl") (some (strL "wi:" ++ inst.id)) iat))) =
      some (Json.obj (jwtBody (sessionClaims inst.id n) ttl (strL "tgl")
        (some (strL "wi:" ++ inst.id)) iat)))
    (hexp : ttl ≤ 0 ∨ (0 < ttl ∧ now - 60 < iat + ttl)) :
    verifyJwtHs256 hmac jsonParse
        (mintedSessionToken hmac jsonStringify cs inst.id n ttl iat)
        (deriveCookieSigningKey hmac cs inst.id) (strL "tgl")
        (some (strL "wi:" ++ inst.id)) now 60 =
      JwtResult.ok (Json.obj (jwtBody (sessionClaims inst.id n) ttl
        (strL "tgl") (some (strL "wi:" ++ inst.id)) iat))
    ∧ verifyAccessOrPasswordPage hmac jsonParse inst wh cs none
        (some (mintedSessionToken hmac jsonStringify cs inst.id n ttl iat)) now =
      GateResult.passwordPage
    ∧ verifyJWTForAPI hmac jsonParse inst.id (some inst) (some wh) (some cs)
        (some (mintedSessionToken hmac jsonStringify cs inst.id n ttl iat)) now =
      ApiResult.err (strL "Token has been revoked") := by
  have hfexp : strL "exp" ∉ (sessionClaims inst.id n).map Prod.fst := by
    simp only [sessionClaims, List.map_cons, List.map_nil]
    decide
  have hBiid : lookupKV (jwtBody (sessionClaims inst.id n) ttl (strL "tgl")
      (some (strL "wi:" ++ inst.id)) iat) (strL "iid") = some (Json.str inst.id) := by
    rw [jwtBody_other _ _ _ _ _ _ (by decide) (by decide) (by decide) (by decide)]
    simp only [sessionClaims, lookupKV]
    rw [if_pos trivial]
  have hBtv : lookupKV (jwtBody (sessionClaims inst.id n) ttl (strL "tgl")
      (some (strL "wi:" ++ inst.id)) iat) (strL "tv") = some (Json.num (n : Int)) := by
    rw [jwtBody_other _ _ _ _ _ _ (by decide) (by decide) (by decide) (by decide)]
    simp only [sessionClaims, lookupKV]
    rw [if_neg (by decide), if_pos trivial]
  have hBnbf : lookupKV (jwtBody (sessionClaims inst.id n) ttl (strL "tgl")
      (some (strL "wi:" ++ inst.id)) iat) (strL "nbf") = none := by
    rw [jwtBody_other _ _ _ _ _ _ (by decide) (by decide) (by decide) (by decide)]
    simp only [sessionClaims, lookupKV]
    rw [if_neg (by decide), if_neg (by decide)]
  have hverify : verifyJwtHs256 hmac jsonParse
      (mintedSessionToken hmac jsonStringify cs inst.id n ttl iat)
      (deriveCookieSigningKey hmac cs inst.id) (strL "tgl")
      (some (strL "wi:" ++ inst.id)) now 60 =
      JwtResult.ok (Json.obj (jwtBody (sessionClaims inst.id n) ttl
        (strL "tgl") (some (strL "wi:" ++ inst.id)) iat)) := by
    unfold mintedSessionToken
    rw [verify_create hmac jsonParse jsonStringify _ _ _ _ _ _ _ _ hby hsh hsb hph hpb]
    refine claimChecks_pass _ _ _ _ _ (jwtBody_iss _ _ _ _ _) (jwtBody_aud _ _ _ _ _)
      hBnbf ?_
    rcases hexp with hexp | ⟨hpos, hwin⟩
    · exact Or.inl (jwtBody_exp_nonpos _ _ _ _ _ (by omega) hfexp)
    · exact Or.inr ⟨iat + ttl, jwtBody_exp_pos _ _ _ _ _ hpos, by omega⟩
  have htokne : mintedSessionToken hmac jsonStringify cs inst.id n ttl iat ≠ [] := by
    unfold mintedSessionToken
    exact createJwtHs256_ne_nil _ _ _ _ _ _ _ _
  refine ⟨hverify, ?_, ?_⟩
  · simp only [verifyAccessOrPasswordPage]
    rw [hprot]
    rw [if_neg (by decide : ¬ true = false)]
    dsimp only [truthyStr]
    rw [if_neg htokne]
    dsimp only
    rw [if_neg (not_or.mpr ⟨hcs, hid⟩)]
    rw [hverify]
    simp only [jsFalsy, Bool.false_eq_true, if_false, jget]
    rw [hBiid, hBtv]
    rw [if_neg (by simp [jseqStr] :
      ¬ jseqStr (some (Json.str inst.id)) inst.id = false)]
    rw [if_pos (by simp only [jsToUint32, htv1]; omega :
      jsToUint32 (some (Json.num (n : Int))) ≠ inst.tokenVersion % 4294967296)]
  · simp only [verifyJWTForAPI, truthyStr]
    rw [if_neg hcs]
    dsimp only
    rw [if_neg hid]
    rw [if_neg htokne]
    dsimp only
    rw [hverify]
    simp only [jsFalsy, Bool.false_eq_true, if_false, jget]
    rw [hBiid, hBtv]
    rw [if_neg (by simp [jseqStr] :
      ¬ jseqStr (some (Json.str inst.id)) inst.id = false)]
    rw [if_pos (by simp only [jsParseInt, htv1, ne_eq, Option.some.injEq]; omega :
      jsParseInt (some (Json.num (n : Int))) ≠ some (inst.tokenVersion : Int))]

/-- C1: for every session JWT that verifies under the derived cookie key
(with a numeric `tv` claim), both gates ALLOW only if the payload's `iid`
is the instance id and its `tv` equals the instance's revocation counter
under unsigned 32-bit equality; and a JWT minted with `tv = N` is denied by
both gates once the counter is `N + 1`, even though the signature (and the
whole JWT verification) still succeeds. -/
theorem session_gates_enforce_revocation :
    (∀ (hmac : List Nat → List Nat → List Nat) (jsonParse : List Nat → Option Json)
        (inst : InstanceRec) (webhook : WebhookRec) (cs ct : List Char)
        (now : Int) (p : Json) (t : Int),
      webhook.passwordProtected = true →
      verifyJwtHs256 hmac jsonParse ct (deriveCookieSigningKey hmac cs inst.id)
          (strL "tgl") (some (strL "wi:" ++ inst.id)) now 60 = JwtResult.ok p →
      jget p (strL "tv") = some (Json.num t) →
      verifyAccessOrPasswordPage hmac jsonParse inst webhook cs none (some ct)
          now = GateResult.allow →
      jseqStr (jget p (strL "iid")) inst.id = true ∧
        (t % 4294967296).toNat = inst.tokenVersion % 4294967296)
    ∧ (∀ (hmac : List Nat → List Nat → List Nat) (jsonParse : List Nat → Option Json)
        (instanceId : List Char) (inst : InstanceRec) (wh : WebhookRec)
        (cs ct : List Char) (now : Int) (p q : Json) (t : Int),
      verifyJwtHs256 hmac jsonParse ct (deriveCookieSigningKey hmac cs instanceId)
          (strL "tgl") (some (strL "wi:" ++ instanceId)) now 60 = JwtResult.ok p →
      jget p (strL "tv") = some (Json.num t) →
      verifyJWTForAPI hmac jsonParse instanceId (some inst) (some wh) (some cs)
          (some ct) now = ApiResult.ok q →
      jseqStr (jget p (strL "iid")) instanceId = true ∧
        (t % 4294967296).toNat = inst.tokenVersion % 4294967296)
    ∧ (∀ (hmac : List Nat → List Nat → List Nat) (jsonParse : List Nat → Option Json)
        (jsonStringify : Json → List Nat) (inst : InstanceRec) (wh : WebhookRec)
        (cs : List Char) (n : Nat) (ttl iat now : Int),
      wh.passwordProtected = true → cs ≠ [] → inst.id ≠ [] →
      inst.tokenVersion = n + 1 →
      (∀ k d, ∀ b ∈ hmac k d, b < 256) →
      (∀ b ∈ jsonStringify jwtHeader, b < 256) →
      (∀ b ∈ jsonStringify (Json.obj (jwtBody (sessionClaims inst.id n) ttl
          (strL "tgl") (some (strL "wi:" ++ inst.id)) iat)), b < 256) →
      jsonParse (jsonStringify jwtHeader) = some jwtHeader →
      jsonParse (jsonStringify (Json.obj (jwtBody (sessionClaims inst.id n) ttl
          (strL "tgl") (some (strL "wi:" ++ inst.id)) iat))) =
        some (Json.obj (jwtBody (sessionClaims inst.id n) ttl (strL "tgl")
          (some (strL "wi:" ++ inst.id)) iat)) →
      (ttl ≤ 0 ∨ (0 < ttl ∧ now - 60 < iat + ttl)) →
      verifyJwtHs256 hmac jsonParse
          (mintedSessionToken hmac jsonStringify cs inst.id n ttl iat)
          (deriveCookieSigningKey hmac cs inst.id) (strL "tgl")
          (some (strL "wi:" ++ inst.id)) now 60 =
        JwtResult.ok (Json.obj (jwtBody (sessionClaims inst.id n) ttl
          (strL "tgl") (some (strL "wi:" ++ inst.id)) iat))
      ∧ verifyAccessOrPasswordPage hmac jsonParse inst wh cs none
          (some (mintedSessionToken hmac jsonStringify cs inst.id n ttl iat)) now =
        GateResult.passwordPage
      ∧ verifyJWTForAPI hmac jsonParse inst.id (some inst) (some wh) (some cs)
          (some (mintedSessionToken hmac jsonStringify cs inst.id n ttl iat)) now =
        ApiResult.err (strL "Token has been revoked")) :=
  ⟨fun hmac jsonParse inst webhook cs ct now p t h1 h2 h3 h4 =>
      gate_cookie_allow_only_if hmac jsonParse inst webhook cs ct now p t h1 h2 h3 h4,
    fun hmac jsonParse instanceId inst wh cs ct now p q t h1 h2 h3 =>
      api_ok_only_if hmac jsonParse instanceId inst wh cs ct now p q t h1 h2 h3,
    fun hmac jsonParse jsonStringify inst wh cs n ttl iat now h1 h2 h3 h4 h5 h6 h7
        h8 h9 h10 =>
      minted_jwt_denied_after_revocation hmac jsonParse jsonStringify inst wh cs n
        ttl iat now h1 h2 h3 h4 h5 h6 h7 h8 h9 h10⟩

/-- Witness for C1 at concrete inputs: the instance's counter is 8, the
cookie JWT carries `tv = 7`; the JWT itself verifies ok, yet the password
gate shows the password page and the API gate reports revocation. -/
theorem session_gates_enforce_revocation_witness :
    verifyJwtHs256 hmacW parseW0
        (mintedSessionToken hmacW stringifyW (strL "secret") (strL "i1") 7 0 100)
        (deriveCookieSigningKey hmacW (strL "secret") (strL "i1")) (strL "tgl")
        (some (strL "wi:" ++ strL "i1")) 50000 60 =
      JwtResult.ok (Json.obj (jwtBody (sessionClaims (strL "i1") 7) 0
        (strL "tgl") (some (strL "wi:" ++ strL "i1")) 100))
    ∧ verifyAccessOrPasswordPage hmacW parseW0
        ⟨strL "i1", none, 8, none⟩ ⟨true⟩ (strL "secret") none
        (some (mintedSessionToken hmacW stringifyW (strL "secret") (strL "i1") 7 0 100))
        50000 = GateResult.passwordPage
    ∧ verifyJWTForAPI hmacW parseW0 (strL "i1")
        (some ⟨strL "i1", none, 8, none⟩) (some ⟨true⟩) (some (strL "secret"))
        (some (mintedSessionToken hmacW stringifyW (strL "secret") (strL "i1") 7 0 100))
        50000 = ApiResult.err (strL "Token has been revoked") :=
  session_gates_enforce_revocation.2.2 hmacW parseW0 stringifyW
    ⟨strL "i1", none, 8, none⟩ ⟨true⟩ (strL "secret") 7 0 100 50000
    rfl (by decide) (by decide) rfl hmacW_lt256 (by decide) (by decide)
    (by rfl) (by rfl) (Or.inl (by norm_num))

/-- C4: on a password-protected webhook, when a (truthy) query-string token
is present and the instance has legacy key material, the gate either ALLOWs
on successful compact verification (under the legacy derived key) or DENYs
immediately; it never proceeds to the cookie check — the result is the same
for every value of the session cookie. (An empty resolved client secret
makes the key derivation throw, which the catch turns into the immediate
denial too.) -/
theorem gate_qs_token_short_circuit :
    ∀ (hmac : List Nat → List Nat → List Nat) (jsonParse : List Nat → Option Json)
      (inst : InstanceRec) (webhook : WebhookRec) (cs qt ak : List Char)
      (cookieToken : Option (List Char)) (now : Int),
    webhook.passwordProtected = true →
    qt ≠ [] → inst.authKey = some ak → ak ≠ [] →
    (verifyAccessOrPasswordPage hmac jsonParse inst webhook cs (some qt)
        cookieToken now = GateResult.allow ↔
      (cs ≠ [] ∧ ∃ i e, verifyCompactToken hmac qt (deriveSigningKey hmac cs ak)
        inst.id (inst.tokenVersion % 4294967296) now = CompactResult.ok i e))
    ∧ (∀ c c' : Option (List Char),
      verifyAccessOrPasswordPage hmac jsonParse inst webhook cs (some qt) c now =
        verifyAccessOrPasswordPage hmac jsonParse inst webhook cs (some qt) c' now) := by
  intro hmac jsonParse inst webhook cs qt ak cookieToken now hprot hqt hak hakne
  have key : ∀ c : Option (List Char),
      verifyAccessOrPasswordPage hmac jsonParse inst webhook cs (some qt) c now =
        (if cs = [] then GateResult.passwordPage
         else match verifyCompactToken hmac qt (deriveSigningKey hmac cs ak)
             inst.id (inst.tokenVersion % 4294967296) now with
           | CompactResult.ok _ _ => GateResult.allow
           | CompactResult.fail _ => GateResult.passwordPage) := by
    intro c
    simp only [verifyAccessOrPasswordPage]
    rw [hprot, if_neg (by decide : ¬ true = false), hak]
    dsimp only [truthyStr]
    rw [if_neg hqt, if_neg hakne]
  refine ⟨?_, fun c c' => by rw [key c, key c']⟩
  rw [key cookieToken]
  constructor
  · intro hallow
    by_cases hcs : cs = []
    · rw [if_pos hcs] at hallow
      exact GateResult.noConfusion hallow
    · rw [if_neg hcs] at hallow
      refine ⟨hcs, ?_⟩
      cases hres : verifyCompactToken hmac qt (deriveSigningKey hmac cs ak)
          inst.id (inst.tokenVersion % 4294967296) now with
      | ok i e => exact ⟨i, e, rfl⟩
      | fail r =>
          rw [hres] at hallow
          exact GateResult.noConfusion hallow
  · rintro ⟨hcs, i, e, hres⟩
    rw [if_neg hcs, hres]

/-- Witness for C4: with an invalid query token present, the gate's outcome
is the same with and without a session cookie. -/
theorem gate_qs_token_short_circuit_witness :
    verifyAccessOrPasswordPage hmacW parseW0
        ⟨strL "i1", some (strL "ak"), 0, none⟩ ⟨true⟩ (strL "secret")
        (some (strL "bad")) (some (strL "cookie")) 0 =
      verifyAccessOrPasswordPage hmacW parseW0
        ⟨strL "i1", some (strL "ak"), 0, none⟩ ⟨true⟩ (strL "secret")
        (some (strL "bad")) none 0 :=
  (gate_qs_token_short_circuit hmacW parseW0
    ⟨strL "i1", some (strL "ak"), 0, none⟩ ⟨true⟩ (strL "secret") (strL "bad")
    (strL "ak") (some (strL "cookie")) 0 rfl (by decide) rfl (by decide)).2
    (some (strL "cookie")) none

-- ── password exchange (handlers/post.mjs, auth-exchange branch)

/-- Outcome of the password-exchange branch: the 401 "Invalid password"
response, or the 200 response that issues the session cookie. -/
inductive ExchangeResult where
  | unauthorized : ExchangeResult
  | unlocked : ExchangeResult
deriving DecidableEq

/-- Auth-exchange branch of handlers/post.mjs `handlePostRequest`:
`provided = payload?.password || ""`, `expected = instance?.password || ""`,
and `!provided || provided !== expected` returns the 401; otherwise the
session cookie is issued. `none` models an absent (or otherwise falsy)
field. -/
def handleAuthExchange (provided expected : Option (List Char)) : ExchangeResult :=
  let prov := match truthyStr provided with
    | some s => s
    | none => []
  let expec := match truthyStr expected with
    | some s => s
    | none => []
  if prov = [] ∨ prov ≠ expec then .unauthorized else .unlocked

/-- C9: a password-exchange POST with an absent or empty provided password
is answered 401 even when the stored instance password is itself absent or
empty, so an instance with no stored password can never be unlocked through
the exchange. -/
theorem password_exchange_requires_password :
    (∀ expected, handleAuthExchange none expected = ExchangeResult.unauthorized)
    ∧ (∀ expected, handleAuthExchange (some []) expected = ExchangeResult.unauthorized)
    ∧ (∀ provided, handleAuthExchange provided none = ExchangeResult.unauthorized)
    ∧ (∀ provided, handleAuthExchange provided (some []) = ExchangeResult.unauthorized) := by
  have hprovnone : ∀ (p e : Option (List Char)), truthyStr p = none →
      handleAuthExchange p e = ExchangeResult.unauthorized := by
    intro p e hp
    simp only [handleAuthExchange, hp]
    rw [if_pos (Or.inl trivial)]
  have hnostore : ∀ (p e : Option (List Char)), truthyStr e = none →
      handleAuthExchange p e = ExchangeResult.unauthorized := by
    intro p e he
    simp only [handleAuthExchange, he]
    cases hp : truthyStr p with
    | none =>
        dsimp only
        rw [if_pos (Or.inl rfl)]
    | some s =>
        have hs : s ≠ [] := by
          cases p with
          | none => exact absurd hp (by simp [truthyStr])
          | some s0 =>
              simp only [truthyStr] at hp
              by_cases h0 : s0 = []
              · rw [if_pos h0] at hp
                exact absurd hp (by simp)
              · rw [if_neg h0] at hp
                cases hp
                exact h0
        dsimp only
        rw [if_pos (Or.inr hs)]
  exact ⟨fun e => hprovnone none e rfl, fun e => hprovnone (some []) e rfl,
    fun p => hnostore p none rfl, fun p => hnostore p (some []) rfl⟩

-- ── CSRF validation (auth/jwt.mjs `validateCSRFHeaders`)

/-- The parts of a WHATWG `URL` the validator uses: `protocol` (with the
trailing colon) and `host`. -/
structure UrlParts where
  protocol : List Char
  host : List Char

/-- JS `toLowerCase` (ASCII, as header names are). -/
def lowerStr (s : List Char) : List Char := s.map Char.toLower

/-- Normalized header lookup: `Object.entries` assignment into a map keyed
by the lowercased name — the last entry with that lowercased key wins. -/
def normHeader (headers : List (List Char × List Char)) (k : List Char) :
    Option (List Char) :=
  (headers.reverse.find? (fun kv => decide (lowerStr kv.1 = k))).map Prod.snd

/-- `normalizedHeaders.origin || normalizedHeaders.referer` with JS
falsiness (an empty header value falls through / fails). -/
def originHeader (headers : List (List Char × List Char)) : Option (List Char) :=
  match truthyStr (normHeader headers (strL "origin")) with
  | some o => some o
  | none => truthyStr (normHeader headers (strL "referer"))

/-- Result value of `validateCSRFHeaders`. -/
inductive CsrfResult where
  | ok : CsrfResult
  | err (msg : List Char) : CsrfResult
deriving DecidableEq

/-- The `X-Requested-With` tail check of `validateCSRFHeaders`. -/
def xrwCheck (headers : List (List Char × List Char)) (requireXRW : Bool) :
    CsrfResult :=
  if requireXRW then
    if (match normHeader headers (strL "x-requested-with") with
        | some v => decide (v = strL "XMLHttpRequest")
        | none => false) then CsrfResult.ok
    else CsrfResult.err (strL "Missing or invalid X-Requested-With header")
  else CsrfResult.ok

/-- auth/jwt.mjs `validateCSRFHeaders`. `urlParse` models the WHATWG
`new URL(...)` constructor (`none` = throw, caught into the invalid-origin
error); `originBase` is `protocol + "//" + host` and the allowed check is
`originBase.startsWith(allowed)` for some allowed prefix. -/
def validateCSRFHeaders (urlParse : List Char → Option UrlParts)
    (headers : List (List Char × List Char)) (allowedOrigins : List (List Char))
    (requireXRW : Bool) : CsrfResult :=
  if 0 < allowedOrigins.length then
    match originHeader headers with
    | none => CsrfResult.err (strL "Missing Origin/Referer header")
    | some o =>
      match urlParse o with
      | none => CsrfResult.err (strL "Invalid Origin header")
      | some u =>
        if allowedOrigins.any
            (fun al => al.isPrefixOf (u.protocol ++ strL "//" ++ u.host)) then
          xrwCheck headers requireXRW
        else CsrfResult.err (strL "Origin not allowed")
  else xrwCheck headers requireXRW

/-- Concrete model of `new URL` for plain http(s) URLs, enough for the
spec's examples: scheme and host up to the first path/query/fragment
delimiter. -/
def urlParseSimple (s : List Char) : Option UrlParts :=
  if (strL "https://").isPrefixOf s then
    some ⟨strL "https:",
      (s.drop 8).takeWhile (fun c => !(c == '/' || c == '?' || c == '#'))⟩
  else if (strL "http://").isPrefixOf s then
    some ⟨strL "http:",
      (s.drop 7).takeWhile (fun c => !(c == '/' || c == '?' || c == '#'))⟩
  else none

/-- C8: with a non-empty allowed-origins list, `validateCSRFHeaders` fails
with the missing-origin error when neither Origin nor Referer is present
(case-insensitive lookup, falsy values skipped), with the invalid-origin
error when the header does not parse as a URL, and with the
origin-not-allowed error unless scheme+host prefix-matches some allowed
prefix; in particular `https://app.example.com/path` passes against the
allowed prefix `https://app.example.com` while `https://evil.example.com`
fails. -/
theorem csrf_origin_validation :
    (∀ (urlParse : List Char → Option UrlParts)
        (headers : List (List Char × List Char))
        (allowed : List (List Char)) (xrw : Bool), allowed ≠ [] →
      originHeader headers = none →
      validateCSRFHeaders urlParse headers allowed xrw =
        CsrfResult.err (strL "Missing Origin/Referer header"))
    ∧ (∀ (urlParse : List Char → Option UrlParts)
        (headers : List (List Char × List Char))
        (allowed : List (List Char)) (xrw : Bool) (o : List Char),
      allowed ≠ [] →
      originHeader headers = some o → urlParse o = none →
      validateCSRFHeaders urlParse headers allowed xrw =
        CsrfResult.err (strL "Invalid Origin header"))
    ∧ (∀ (urlParse : List Char → Option UrlParts)
        (headers : List (List Char × List Char))
        (allowed : List (List Char)) (xrw : Bool) (o : List Char) (u : UrlParts),
      allowed ≠ [] →
      originHeader headers = some o → urlParse o = some u →
      allowed.any (fun al => al.isPrefixOf (u.protocol ++ strL "//" ++ u.host)) =
        false →
      validateCSRFHeaders urlParse headers allowed xrw =
        CsrfResult.err (strL "Origin not allowed"))
    ∧ (∀ (urlParse : List Char → Option UrlParts)
        (headers : List (List Char × List Char))
        (allowed : List (List Char)) (o : List Char) (u : UrlParts),
      allowed ≠ [] →
      originHeader headers = some o → urlParse o = some u →
      allowed.any (fun al => al.isPrefixOf (u.protocol ++ strL "//" ++ u.host)) =
        true →
      validateCSRFHeaders urlParse headers allowed false = CsrfResult.ok)
    ∧ validateCSRFHeaders urlParseSimple
        [(strL "Origin", strL "https://app.example.com/path")]
        [strL "https://app.example.com"] false = CsrfResult.ok
    ∧ validateCSRFHeaders urlParseSimple
        [(strL "Origin", strL "https://evil.example.com")]
        [strL "https://app.example.com"] false =
      CsrfResult.err (strL "Origin not allowed") := by
  refine ⟨?_, ?_, ?_, ?_, by decide, by decide⟩
  · intro urlParse headers allowed xrw hne ho
    simp only [validateCSRFHeaders, ho]
    rw [if_pos (List.length_pos.mpr hne)]
  · intro urlParse headers allowed xrw o hne ho hp
    simp only [validateCSRFHeaders, ho, hp]
    rw [if_pos (List.length_pos.mpr hne)]
  · intro urlParse headers allowed xrw o u hne ho hp hno
    simp only [validateCSRFHeaders, ho, hp]
    rw [if_pos (List.length_pos.mpr hne)]
    rw [if_neg (by rw [hno]; exact Bool.false_ne_true)]
  · intro urlParse headers allowed o u hne ho hp hyes
    simp only [validateCSRFHeaders, ho, hp]
    rw [if_pos (List.length_pos.mpr hne)]
    rw [if_pos hyes]
    rfl

/-- Witness for C8: an unparsable Origin header yields the invalid-origin
error. -/
theorem csrf_origin_validation_witness :
    validateCSRFHeaders (fun _ => none)
        [(strL "Origin", strL "nonsense")] [strL "https://app.example.com"]
        false = CsrfResult.err (strL "Invalid Origin header") :=
  csrf_origin_validation.2.1 (fun _ => none)
    [(strL "Origin", strL "nonsense")] [strL "https://app.example.com"] false
    (strL "nonsense") (by decide) (by decide) rfl
